import Mathlib

/-!
# Verification of the versioned-datastore multisearch actions and field cache

A shallow embedding of `logic/actions/multisearch.py` (`datastore_multisearch`,
`datastore_guess_fields`, `datastore_resolve_slug`) and `lib/utils.py`
(`get_fields` and its helpers).  External collaborators — the resource
resolver, the backend version resolver, the Elasticsearch client, the plugin
hooks — are parameters of explicit environment structures; the embedded
functions are pure state-passing translations of the Python bodies.
-/

/-- A query dict (opaque to these actions beyond identity). -/
abbrev Query := List (String × String)

/-- An opaque Elasticsearch filter clause (version filters, translated query
clauses); the actions only combine these, never inspect them. -/
abbrev EsFilter := String

/-- One key of an Elasticsearch sort specification, as attached by
`datastore_multisearch` (field name, order, optional unmapped_type). -/
structure SortSpec where
  field : String
  order : String
  unmapped_type : Option String
deriving DecidableEq, Repr

/-- The sort-key tuple of one hit under the fixed multisearch sort:
`(data.modified, data._id, _index)`. -/
structure SortKey where
  modified : Int
  record_id : Int
  index : String
deriving DecidableEq, Repr

/-- The pagination cursor round-tripped through the `after` parameter: the
sort-key tuple of the last record of a page (`hit.meta.sort`). -/
abbrev Cursor := SortKey

/-- One Elasticsearch hit: the record data, the index it lives in
(`hit.meta.index`) and its sort-key tuple (`hit.meta.sort`). -/
structure Hit where
  data : List (String × String)
  index : String
  sort : SortKey
deriving DecidableEq, Repr

/-- The search request assembled by `datastore_multisearch` before execution:
translated query filters plus version filter, sort spec, `search_after`,
`size`, target indexes, and whether a terms aggregation on `_index` was
attached (`top_resources`). -/
structure SearchRequest where
  filters : List EsFilter
  sort : List SortSpec
  search_after : Option Cursor
  size : Int
  indexes : List String
  aggs_indexes : Bool
deriving DecidableEq, Repr

/-- The backend's answer to one search: hit list, total count, and the
buckets of the optional `_index` terms aggregation. -/
structure SearchResult where
  hits : List Hit
  total : Nat
  agg_buckets : List (String × Nat)
deriving DecidableEq, Repr

/-- The error outcomes of the embedded actions.  `validation` is
`toolkit.ValidationError` (user-correctable); `keyError` is an uncaught
Python `KeyError`; `backend` is an uncaught exception from the search
backend or persistence layer (infrastructure failure). -/
inductive Err where
  | validation : String → Err
  | keyError : String → Err
  | backend : String → Err
deriving DecidableEq, Repr

/-- One record of the multisearch response: the hit data plus the logical
resource id of the index it came from. -/
structure MsRecord where
  data : List (String × String)
  resource : String
deriving DecidableEq, Repr

/-- The assembled `datastore_multisearch` response dict. -/
structure MsResponse where
  total : Nat
  after : Option Cursor
  records : List MsRecord
  skipped_resources : List String
  top_resources : Option (List (String × Nat))
  timings : Bool
deriving DecidableEq, Repr

/-- The parameters of `datastore_multisearch` (the `context` argument is
folded into the environment). -/
structure MsParams where
  query : Option Query
  query_version : Option String
  version : Option Nat
  resource_ids : Option (List String)
  resource_ids_and_versions : Option (List (String × Nat))
  size : Int
  after : Option Cursor
  top_resources : Bool
  timings : Bool

/-- The collaborators `datastore_multisearch` calls: query schema registry,
validator/translator, resource resolver, version-filter builder, the search
backend, and the registered response-modifier plugins. -/
structure MsEnv where
  pfx : String
  latest_query_version : String
  validate_query : Query → String → Except String Unit
  translate_query : Query → String → Except String (List EsFilter)
  determine_resources_to_search :
    Option (List String) → Option (List (String × Nat)) → List String × List String
  determine_version_filter :
    Option Nat → List String → Option (List (String × Nat)) → EsFilter
  execute : SearchRequest → Except String SearchResult
  modify_response : List (MsResponse → MsResponse)

/-- `prefix_resource` from `lib/utils.py`: prepend the configured index
name prefix to the resource id. -/
def prefix_resource (pfx : String) (resource_id : String) : String :=
  pfx ++ resource_id

/-- `prefix_field` from `lib/utils.py`: all record data lives under the
`data.` key in Elasticsearch. -/
def prefix_field (field : String) : String :=
  "data." ++ field

/-- Modelled from the spec: `trim_index_name` (lib/datastore_utils, not under
src/) recovers the logical resource id from a physical index name — the
"index-name prefix stripped" annotation of section 4.2. -/
def trim_index_name (pfx : String) (index : String) : String :=
  index.drop pfx.length

/-- Modelled from the spec: `calculate_after` (lib/query/utils, not under
src/) implements the pagination protocol of section 4.2 — "request `size+1`
records; if `size+1` are returned, the extra record is dropped and a
non-null cursor is emitted built from the last returned record's sort-key
tuple; otherwise no more pages exist and the cursor is null". -/
def calculate_after (result : SearchResult) (size : Int) :
    List Hit × Option Cursor :=
  if size < (result.hits.length : Int) then
    let hits := result.hits.take size.toNat
    (hits, hits.getLast?.map Hit.sort)
  else
    (result.hits, none)

/-- The search request `datastore_multisearch` assembles (lines 83–107 of
`multisearch.py`): version filter added to the translated query, the fixed
three-key sort, the `after` cursor, `size+1` (size clamped to [0, 1000]),
the prefixed resource indexes, and the optional `_index` terms
aggregation. -/
def build_multisearch_request (env : MsEnv) (base : List EsFilter)
    (p : MsParams) (resource_ids : List String) : SearchRequest :=
  { filters := base ++
      [env.determine_version_filter p.version resource_ids
        p.resource_ids_and_versions]
  , sort := [⟨"data.modified", "desc", some "date"⟩,
             ⟨"data._id", "desc", none⟩,
             ⟨"_index", "desc", none⟩]
  , search_after := p.after
  , size := max 0 (min p.size 1000) + 1
  , indexes := resource_ids.map (prefix_resource env.pfx)
  , aggs_indexes := p.top_resources }

/-- `datastore_multisearch` from `logic/actions/multisearch.py`.  Returns the
response (or the raised error) together with the list of search requests
actually executed against the backend. -/
def datastore_multisearch (env : MsEnv) (p : MsParams) :
    Except Err MsResponse × List SearchRequest :=
  let query := p.query.getD []
  let query_version := p.query_version.getD env.latest_query_version
  let size := max 0 (min p.size 1000)
  match env.validate_query query query_version with
  | .error msg => (.error (.validation msg), [])
  | .ok _ =>
    match env.translate_query query query_version with
    | .error msg => (.error (.validation msg), [])
    | .ok base =>
      let rpair := env.determine_resources_to_search p.resource_ids
        p.resource_ids_and_versions
      let resource_ids := rpair.1
      let skipped_resource_ids := rpair.2
      if resource_ids.isEmpty then
        (.error (.validation
          "The requested resources aren\x27t accessible to this user"), [])
      else
        let req := build_multisearch_request env base p resource_ids
        match env.execute req with
        | .error msg => (.error (.backend msg), [req])
        | .ok result =>
          let ca := calculate_after result size
          let hits := ca.1
          let next_after := ca.2
          let response : MsResponse :=
            { total := result.total
            , after := next_after
            , records := hits.map (fun hit =>
                ⟨hit.data, trim_index_name env.pfx hit.index⟩)
            , skipped_resources := skipped_resource_ids
            , top_resources := if p.top_resources then
                some (result.agg_buckets.map (fun b =>
                  (trim_index_name env.pfx b.1, b.2)))
              else none
            , timings := p.timings }
          (.ok (env.modify_response.foldl (fun r f => f r) response), [req])

/-- One field descriptor of the `get_fields` response (reclineJS field
format): `{id, type}`. -/
structure FieldDesc where
  id : String
  type : String
deriving DecidableEq, Repr

/-- The part of an Elasticsearch index mapping `get_fields` reads: the keys
of `mappings[DOC_TYPE].properties.data.properties` (the declared data
fields, `_id` included), carried alongside whatever else the raw mapping
holds. -/
structure Mapping where
  dataFields : List String
deriving DecidableEq, Repr

/-- One sub-search of the batched existence `MultiSearch` built by
`get_fields`: an `exists` filter on the prefixed field and a `term` filter
on `meta.versions` at the rounded version, against one index, size 0. -/
structure ExistsQuery where
  index : String
  field : String
  version : Nat
deriving DecidableEq, Repr

/-- The module-level `field_cache` dict of `lib/utils.py`: entries keyed by
`(resource_id, rounded_version)` holding `(mapping, fields)`. -/
abbrev FieldCache := List ((String × Option Nat) × (Mapping × List FieldDesc))

/-- Python dict lookup on the field cache. -/
def cacheGet (cache : FieldCache) (k : String × Option Nat) :
    Option (Mapping × List FieldDesc) :=
  match cache with
  | [] => none
  | (k', v) :: rest => if k = k' then some v else cacheGet rest k

/-- Lexicographic comparison of two strings, character list by character
list (Python's string ordering, by code point). -/
def charsLe : List Char → List Char → Bool
  | [], _ => true
  | _ :: _, [] => false
  | a :: as, b :: bs =>
    if a < b then true
    else if b < a then false
    else charsLe as bs

/-- Insert a string into a sorted list of strings. -/
def insertSorted (s : String) : List String → List String
  | [] => [s]
  | t :: rest =>
    if charsLe s.data t.data then s :: t :: rest else t :: insertSorted s rest

/-- Python's `sorted` on a list of strings (insertion sort). -/
def sortStrings (l : List String) : List String :=
  l.foldr insertSorted []

/-- The collaborators `get_fields` calls on the eevee `SEARCHER`: rounded
version resolution, index-mapping fetch, and the per-sub-search hit totals
of an executed `MultiSearch`. -/
structure FcEnv where
  pfx : String
  get_rounded_version : String → Option Nat → Option Nat
  get_mapping : String → Mapping
  total : ExistsQuery → Nat

/-- `get_fields` from `lib/utils.py`, with the `field_cache` dict passed
explicitly.  Returns the `(mapping, fields)` pair, the updated cache, and
the list of executed existence batches (one entry per `MultiSearch`
executed; each batch lists its sub-searches in order).  The Python
`field_names.remove('_id')` raises `ValueError` when `_id` is not a
declared field; that path is the `.error` branch. -/
def get_fields (env : FcEnv) (cache : FieldCache) (resource_id : String)
    (version : Option Nat) :
    Except String
      ((Mapping × List FieldDesc) × FieldCache × List (List ExistsQuery)) :=
  let index := prefix_resource env.pfx resource_id
  let rounded_version := env.get_rounded_version index version
  let cache_key := (resource_id, rounded_version)
  match cacheGet cache cache_key with
  | some cached => .ok (cached, cache, [])
  | none =>
    let fields : List FieldDesc := [⟨"_id", "integer"⟩]
    let mapping := env.get_mapping index
    match rounded_version with
    | none => .ok ((mapping, fields), cache, [])
    | some rv =>
      let sortedNames := sortStrings mapping.dataFields
      if "_id" ∈ sortedNames then
        let field_names := sortedNames.erase "_id"
        let searches := field_names.map (fun field =>
          ExistsQuery.mk index (prefix_field field) rv)
        let responses := searches.map env.total
        let fields := fields ++ (field_names.zip responses).filterMap
          (fun pr => if 0 < pr.2 then some (FieldDesc.mk pr.1 "string")
                     else none)
        let entry := (mapping, fields)
        .ok (entry, ((resource_id, some rv), entry) :: cache, [searches])
      else
        .error "ValueError: list.remove(x): x not in list"

/-- Modelled from the spec: the field collection built by `get_all_fields`
(lib/query/fields, not under src/) for the guess-fields path — a set of
case-normalized field groups over the searched resources, with an `ignore`
operation dropping a group (section 4.4). -/
structure AllFields where
  resource_ids : List String
  ignores : List String
deriving DecidableEq, Repr

/-- Modelled from the spec: `Fields.ignore` records a group to drop from the
ranking (section 4.4, "drop any group whose normalized key is in
`ignore_groups`"). -/
def AllFields.ignore (af : AllFields) (group : String) : AllFields :=
  { af with ignores := group :: af.ignores }

/-- The size-0 search passed around by `datastore_guess_fields`: translated
query filters plus the version filter. -/
structure GfSearch where
  filters : List EsFilter
  size : Int
deriving DecidableEq, Repr

/-- The result rows of the guess-fields helpers (opaque to this action). -/
abbrev GfFields := List (String × Nat)

/-- The parameters of `datastore_guess_fields`. -/
structure GfParams where
  query : Option Query
  query_version : Option String
  version : Option Nat
  resource_ids : Option (List String)
  resource_ids_and_versions : Option (List (String × Nat))
  size : Int
  ignore_groups : Option (List String)

/-- The collaborators `datastore_guess_fields` calls: validator/translator,
resource resolver, version-filter builder, clock (`datetime.now` as a
timestamp), `find_searched_resources`, the fields collection builder, the
guess-fields plugin hooks, and the two ranking helpers. -/
structure GfEnv where
  latest_query_version : String
  validate_query : Query → String → Except String Unit
  translate_query : Query → String → Except String (List EsFilter)
  determine_resources_to_search :
    Option (List String) → Option (List (String × Nat)) → List String × List String
  determine_version_filter :
    Option Nat → List String → Option (List (String × Nat)) → EsFilter
  now : Nat
  find_searched_resources : GfSearch → List String → List String
  get_all_fields : List String → AllFields
  modify_guess_fields : List (List String → AllFields → AllFields)
  get_single_resource_fields :
    AllFields → String → Nat → GfSearch → Int → GfFields
  select_fields : AllFields → GfSearch → Int → GfFields

/-- Python dict lookup for `resource_ids_and_versions[resource_id]`. -/
def lookupKV (m : List (String × Nat)) (k : String) : Option Nat :=
  match m with
  | [] => none
  | (k', v) :: rest => if k = k' then some v else lookupKV rest k

/-- `datastore_guess_fields` from `logic/actions/multisearch.py`. -/
def datastore_guess_fields (env : GfEnv) (p : GfParams) :
    Except Err GfFields :=
  let query := p.query.getD []
  let query_version := p.query_version.getD env.latest_query_version
  let ignore_groups := ((p.ignore_groups.getD []).map String.toLower).dedup
  match env.validate_query query query_version with
  | .error msg => .error (.validation msg)
  | .ok _ =>
    match env.translate_query query query_version with
    | .error msg => .error (.validation msg)
    | .ok base =>
      let rpair := env.determine_resources_to_search p.resource_ids
        p.resource_ids_and_versions
      let resource_ids := rpair.1
      if resource_ids.isEmpty then
        .error (.validation
          "The requested resources aren\x27t accessible to this user")
      else
        let version := p.version.getD env.now
        let search : GfSearch :=
          { filters := base ++
              [env.determine_version_filter (some version) resource_ids
                p.resource_ids_and_versions]
          , size := 0 }
        let resource_ids := env.find_searched_resources search resource_ids
        let all_fields := env.get_all_fields resource_ids
        let all_fields := ignore_groups.foldl AllFields.ignore all_fields
        let all_fields := env.modify_guess_fields.foldl
          (fun af f => f resource_ids af) all_fields
        match resource_ids with
        | [resource_id] =>
          match p.resource_ids_and_versions with
          | none =>
            .ok (env.get_single_resource_fields all_fields resource_id
              version search p.size)
          | some m =>
            match lookupKV m resource_id with
            | some up_to_version =>
              .ok (env.get_single_resource_fields all_fields resource_id
                up_to_version search p.size)
            | none => .error (.keyError resource_id)
        | _ =>
          .ok (env.select_fields all_fields search (max 0 (min p.size 25)))

/-- Modelled from the spec: the persisted `Slug` model (lib/query/slugs, not
under src/) — "`{slug_string, query, query_version, version, resource_ids,
resource_ids_and_versions, created_at}`" (section 3).  `created` is a
timestamp. -/
structure Slug where
  query : Query
  query_version : String
  version : Option Nat
  resource_ids : Option (List String)
  resource_ids_and_versions : Option (List (String × Nat))
  created : Nat
deriving DecidableEq, Repr

/-- The `datastore_resolve_slug` response dict: the stored parameter tuple
plus the creation time. -/
structure ResolveSlugResult where
  query : Query
  query_version : String
  version : Option Nat
  resource_ids : Option (List String)
  resource_ids_and_versions : Option (List (String × Nat))
  created : Nat
deriving DecidableEq, Repr

/-- `datastore_resolve_slug` from `logic/actions/multisearch.py`, with the
slug store's `resolve_slug` lookup passed as a function. -/
def datastore_resolve_slug (resolve_slug : String → Option Slug)
    (slug : String) : Except Err ResolveSlugResult :=
  match resolve_slug slug with
  | none => .error (.validation "Slug not found")
  | some found_slug =>
    .ok ⟨found_slug.query, found_slug.query_version, found_slug.version,
         found_slug.resource_ids, found_slug.resource_ids_and_versions,
         found_slug.created⟩

/-- "a sorts strictly before b" under the fixed multisearch sort
`(data.modified desc, data._id desc, _index desc)`: descending
lexicographic comparison of the sort-key tuples. -/
def sortKeyBefore (a b : SortKey) : Prop :=
  b.modified < a.modified ∨
    (b.modified = a.modified ∧
      (b.record_id < a.record_id ∨
        (b.record_id = a.record_id ∧ b.index < a.index)))

theorem sortKeyBefore_irrefl (a : SortKey) : ¬ sortKeyBefore a a := by
  simp [sortKeyBefore]

theorem sortKeyBefore_trans (a b c : SortKey) :
    sortKeyBefore a b → sortKeyBefore b c → sortKeyBefore a c := by
  intro hab hbc
  rcases hab with h1 | ⟨e1, h1⟩ <;> rcases hbc with h2 | ⟨e2, h2⟩
  · exact Or.inl (lt_trans h2 h1)
  · exact Or.inl (lt_of_eq_of_lt e2 h1)
  · exact Or.inl (lt_of_lt_of_eq h2 e1)
  · refine Or.inr ⟨e2.trans e1, ?_⟩
    rcases h1 with h1 | ⟨f1, h1⟩ <;> rcases h2 with h2 | ⟨f2, h2⟩
    · exact Or.inl (lt_trans h2 h1)
    · exact Or.inl (lt_of_eq_of_lt f2 h1)
    · exact Or.inl (lt_of_lt_of_eq h2 f1)
    · exact Or.inr ⟨f2.trans f1, lt_trans h2 h1⟩

theorem sortKeyBefore_trichotomy (a b : SortKey) :
    sortKeyBefore a b ∨ a = b ∨ sortKeyBefore b a := by
  rcases lt_trichotomy a.modified b.modified with h | h | h
  · exact Or.inr (Or.inr (Or.inl h))
  · rcases lt_trichotomy a.record_id b.record_id with h2 | h2 | h2
    · exact Or.inr (Or.inr (Or.inr ⟨h, Or.inl h2⟩))
    · rcases lt_trichotomy a.index b.index with h3 | h3 | h3
      · exact Or.inr (Or.inr (Or.inr ⟨h, Or.inr ⟨h2, h3⟩⟩))
      · refine Or.inr (Or.inl ?_)
        cases a; cases b; simp_all
      · exact Or.inl (Or.inr ⟨h.symm, Or.inr ⟨h2.symm, h3⟩⟩)
    · exact Or.inl (Or.inr ⟨h.symm, Or.inl h2⟩)
  · exact Or.inl (Or.inl h)

/-- C2: every `datastore_multisearch` call attaches exactly the fixed
three-key sort (`data.modified` desc, `data._id` desc, `_index` desc) to
every backend search it issues, and the record order this sort induces on
sort-key tuples is a strict total order (irreflexive, transitive,
trichotomous), so it is strict across all searched resources. -/
theorem multisearch_fixed_sort_strict_total_order :
    (∀ (env : MsEnv) (p : MsParams),
      ((datastore_multisearch env p).2.all (fun req =>
        req.sort == [⟨"data.modified", "desc", some "date"⟩,
                     ⟨"data._id", "desc", none⟩,
                     ⟨"_index", "desc", none⟩])) = true) ∧
    (∀ a : SortKey, ¬ sortKeyBefore a a) ∧
    (∀ a b c : SortKey,
      sortKeyBefore a b → sortKeyBefore b c → sortKeyBefore a c) ∧
    (∀ a b : SortKey, sortKeyBefore a b ∨ a = b ∨ sortKeyBefore b a) := by
  refine ⟨?_, sortKeyBefore_irrefl, sortKeyBefore_trans,
    sortKeyBefore_trichotomy⟩
  intro env p
  unfold datastore_multisearch
  cases hv : env.validate_query (p.query.getD [])
      (p.query_version.getD env.latest_query_version) with
  | error msg => simp [hv]
  | ok u =>
    cases ht : env.translate_query (p.query.getD [])
        (p.query_version.getD env.latest_query_version) with
    | error msg => simp [hv, ht]
    | ok base =>
      by_cases hE : (env.determine_resources_to_search p.resource_ids
          p.resource_ids_and_versions).1.isEmpty
      · simp [hv, ht, hE]
      · cases hx : env.execute (build_multisearch_request env base p
            (env.determine_resources_to_search p.resource_ids
              p.resource_ids_and_versions).1) with
        | error msg =>
          simp only [build_multisearch_request] at hx
          simp [hv, ht, hE, hx, build_multisearch_request]
        | ok result =>
          simp only [build_multisearch_request] at hx
          simp [hv, ht, hE, hx, build_multisearch_request]

/-- C7: the effective page size is `max 0 (min size 1000)` in
`datastore_multisearch` (the backend search is issued at that value plus
one) and `max 0 (min size 25)` in the multi-resource path of
`datastore_guess_fields`; both clamps land in `[0, 1000]` and `[0, 25]`
respectively. -/
theorem effective_size_clamped
    (env : MsEnv) (base : List EsFilter) (p : MsParams) (rids : List String)
    (genv : GfEnv) (gp : GfParams) (gbase : List EsFilter)
    (rids0 skipped : List String) (r1 r2 : String) (rest : List String)
    (hv : genv.validate_query (gp.query.getD [])
      (gp.query_version.getD genv.latest_query_version) = .ok ())
    (ht : genv.translate_query (gp.query.getD [])
      (gp.query_version.getD genv.latest_query_version) = .ok gbase)
    (hres : genv.determine_resources_to_search gp.resource_ids
      gp.resource_ids_and_versions = (rids0, skipped))
    (hne : rids0 ≠ [])
    (hfind : genv.find_searched_resources
      { filters := gbase ++ [genv.determine_version_filter
          (some (gp.version.getD genv.now)) rids0
          gp.resource_ids_and_versions]
      , size := 0 } rids0 = r1 :: r2 :: rest) :
    ((build_multisearch_request env base p rids).size =
        max 0 (min p.size 1000) + 1 ∧
      0 ≤ max 0 (min p.size 1000) ∧ max 0 (min p.size 1000) ≤ 1000) ∧
    (∃ af, datastore_guess_fields genv gp =
        .ok (genv.select_fields af
          { filters := gbase ++ [genv.determine_version_filter
              (some (gp.version.getD genv.now)) rids0
              gp.resource_ids_and_versions]
          , size := 0 } (max 0 (min gp.size 25))) ∧
      0 ≤ max 0 (min gp.size 25) ∧ max 0 (min gp.size 25) ≤ 25) := by
  refine ⟨⟨rfl, le_max_left 0 _, max_le (by norm_num)
    (min_le_right _ _)⟩, ?_⟩
  unfold datastore_guess_fields
  simp only [hv, ht, hres, hfind]
  simp [hne]
  exact ⟨_, rfl⟩

/-- C8: when the resource resolver returns an empty allowed set, both
`datastore_multisearch` and `datastore_guess_fields` fail with the
user-correctable validation error before any backend search is executed
(the multisearch request log is empty), and that error is a different
constructor from any backend/infrastructure failure. -/
theorem empty_resources_validation_error
    (env : MsEnv) (p : MsParams) (genv : GfEnv) (gp : GfParams)
    (base gbase : List EsFilter) (skipped gskipped : List String)
    (hv : env.validate_query (p.query.getD [])
      (p.query_version.getD env.latest_query_version) = .ok ())
    (ht : env.translate_query (p.query.getD [])
      (p.query_version.getD env.latest_query_version) = .ok base)
    (hres : env.determine_resources_to_search p.resource_ids
      p.resource_ids_and_versions = ([], skipped))
    (hgv : genv.validate_query (gp.query.getD [])
      (gp.query_version.getD genv.latest_query_version) = .ok ())
    (hgt : genv.translate_query (gp.query.getD [])
      (gp.query_version.getD genv.latest_query_version) = .ok gbase)
    (hgres : genv.determine_resources_to_search gp.resource_ids
      gp.resource_ids_and_versions = ([], gskipped)) :
    datastore_multisearch env p =
      (.error (.validation
        "The requested resources aren\x27t accessible to this user"), []) ∧
    datastore_guess_fields genv gp =
      .error (.validation
        "The requested resources aren\x27t accessible to this user") ∧
    (∀ msg, Err.validation
      "The requested resources aren\x27t accessible to this user" ≠
        Err.backend msg) := by
  refine ⟨?_, ?_, fun msg h => Err.noConfusion h⟩
  · unfold datastore_multisearch
    simp [hv, ht, hres]
  · unfold datastore_guess_fields
    simp [hgv, hgt, hgres]

/-- C9: `datastore_resolve_slug` raises the user-facing "Slug not found"
validation error when the slug string does not resolve (distinct from any
backend/infrastructure error), and on success returns exactly the stored
parameter tuple `(query, query_version, version, resource_ids,
resource_ids_and_versions)` plus the creation timestamp. -/
theorem resolve_slug_not_found_or_tuple
    (resolve_slug : String → Option Slug) (slug : String) :
    (resolve_slug slug = none →
      datastore_resolve_slug resolve_slug slug =
        .error (.validation "Slug not found") ∧
      (∀ msg, Err.validation "Slug not found" ≠ Err.backend msg)) ∧
    (∀ s, resolve_slug slug = some s →
      datastore_resolve_slug resolve_slug slug =
        .ok ⟨s.query, s.query_version, s.version, s.resource_ids,
             s.resource_ids_and_versions, s.created⟩) := by
  constructor
  · intro h
    refine ⟨?_, fun msg hc => Err.noConfusion hc⟩
    unfold datastore_resolve_slug
    simp [h]
  · intro s h
    unfold datastore_resolve_slug
    simp [h]

/-- C6: in the single-resource path of `datastore_guess_fields`, the
effective version handed to the single-resource helper comes from
`resource_ids_and_versions` whenever that map is provided — regardless of
the `version` parameter — and otherwise is `version` defaulted to the
current timestamp when `None`. -/
theorem guess_fields_version_precedence
    (env : GfEnv) (p : GfParams) (base : List EsFilter)
    (rids0 skipped : List String) (rid : String)
    (hv : env.validate_query (p.query.getD [])
      (p.query_version.getD env.latest_query_version) = .ok ())
    (ht : env.translate_query (p.query.getD [])
      (p.query_version.getD env.latest_query_version) = .ok base)
    (hres : env.determine_resources_to_search p.resource_ids
      p.resource_ids_and_versions = (rids0, skipped))
    (hne : rids0 ≠ [])
    (hfind : env.find_searched_resources
      { filters := base ++ [env.determine_version_filter
          (some (p.version.getD env.now)) rids0
          p.resource_ids_and_versions]
      , size := 0 } rids0 = [rid]) :
    (p.resource_ids_and_versions = none →
      ∃ af, datastore_guess_fields env p =
        .ok (env.get_single_resource_fields af rid (p.version.getD env.now)
          { filters := base ++ [env.determine_version_filter
              (some (p.version.getD env.now)) rids0
              p.resource_ids_and_versions]
          , size := 0 } p.size)) ∧
    (∀ m up_to_version, p.resource_ids_and_versions = some m →
      lookupKV m rid = some up_to_version →
      ∃ af, datastore_guess_fields env p =
        .ok (env.get_single_resource_fields af rid up_to_version
          { filters := base ++ [env.determine_version_filter
              (some (p.version.getD env.now)) rids0
              p.resource_ids_and_versions]
          , size := 0 } p.size)) := by
  constructor
  · intro hriv
    rw [hriv] at hres hfind
    unfold datastore_guess_fields
    simp only [hriv, hv, ht, hres, hfind]
    simp [hne]
    exact ⟨_, rfl⟩
  · intro m up_to_version hriv hkv
    rw [hriv] at hres hfind
    unfold datastore_guess_fields
    simp only [hriv, hv, ht, hres, hfind, hkv]
    simp [hne, hkv]
    exact ⟨_, rfl⟩

theorem calculate_after_full (result : SearchResult) (size : Int)
    (h0 : 0 ≤ size) (hlen : result.hits.length = size.toNat + 1) :
    calculate_after result size =
      (result.hits.take size.toNat,
       ((result.hits.take size.toNat).getLast?).map Hit.sort) := by
  unfold calculate_after
  rw [if_pos]
  rw [hlen]
  omega

theorem calculate_after_no_more (result : SearchResult) (size : Int)
    (hlen : (result.hits.length : Int) ≤ size) :
    calculate_after result size = (result.hits, none) := by
  unfold calculate_after
  rw [if_neg (not_lt.mpr hlen)]

/-- C1: `datastore_multisearch` issues its backend search with size one more
than the effective page size `max 0 (min size 1000)`; if the backend
returns that many hits, the extra hit is dropped (the response records are
the first `eff` hits) and the returned `after` cursor is the sort-key tuple
of the last returned record (non-null whenever the page is non-empty);
if the backend returns at most `eff` hits, the `after` cursor is null. -/
theorem multisearch_pagination_protocol
    (env : MsEnv) (p : MsParams) (base : List EsFilter)
    (rids skipped : List String) (result : SearchResult)
    (hmods : env.modify_response = [])
    (hv : env.validate_query (p.query.getD [])
      (p.query_version.getD env.latest_query_version) = .ok ())
    (ht : env.translate_query (p.query.getD [])
      (p.query_version.getD env.latest_query_version) = .ok base)
    (hres : env.determine_resources_to_search p.resource_ids
      p.resource_ids_and_versions = (rids, skipped))
    (hne : rids ≠ [])
    (hx : env.execute (build_multisearch_request env base p rids) =
      .ok result) :
    (build_multisearch_request env base p rids).size =
      max 0 (min p.size 1000) + 1 ∧
    ∃ resp, datastore_multisearch env p =
        (.ok resp, [build_multisearch_request env base p rids]) ∧
      (result.hits.length = (max 0 (min p.size 1000)).toNat + 1 →
        resp.after = ((result.hits.take
            (max 0 (min p.size 1000)).toNat).getLast?).map Hit.sort ∧
        (0 < (max 0 (min p.size 1000)).toNat → resp.after ≠ none) ∧
        resp.records = (result.hits.take
            (max 0 (min p.size 1000)).toNat).map (fun hit =>
          ⟨hit.data, trim_index_name env.pfx hit.index⟩)) ∧
      (result.hits.length ≤ (max 0 (min p.size 1000)).toNat →
        resp.after = none ∧
        resp.records = result.hits.map (fun hit =>
          ⟨hit.data, trim_index_name env.pfx hit.index⟩)) := by
  refine ⟨rfl, ?_⟩
  have h0 : (0 : Int) ≤ max 0 (min p.size 1000) := le_max_left 0 _
  have hdm : datastore_multisearch env p =
      (.ok ⟨result.total,
        (calculate_after result (max 0 (min p.size 1000))).2,
        (calculate_after result (max 0 (min p.size 1000))).1.map (fun hit =>
          ⟨hit.data, trim_index_name env.pfx hit.index⟩),
        skipped,
        if p.top_resources then
          some (result.agg_buckets.map (fun b =>
            (trim_index_name env.pfx b.1, b.2)))
        else none,
        p.timings⟩,
       [build_multisearch_request env base p rids]) := by
    unfold datastore_multisearch
    simp only [hv, ht, hres]
    rw [build_multisearch_request] at hx
    simp [hne, hx, hmods, build_multisearch_request]
  refine ⟨_, hdm, ?_, ?_⟩
  · intro hfull
    rw [calculate_after_full result _ h0 hfull]
    refine ⟨rfl, ?_, rfl⟩
    intro hpos
    have htake : (result.hits.take
        (max 0 (min p.size 1000)).toNat).length =
        (max 0 (min p.size 1000)).toNat := by
      rw [List.length_take]
      omega
    have hnn : result.hits.take (max 0 (min p.size 1000)).toNat ≠ [] := by
      intro hcon
      rw [hcon] at htake
      simp at htake
      omega
    rcases List.getLast?_isSome.mpr hnn |> Option.isSome_iff_exists.mp
      with ⟨x, hxx⟩
    simp [hxx]
  · intro hpart
    rw [calculate_after_no_more result _ (by omega)]
    exact ⟨rfl, rfl⟩

/-- C5: when the resource's rounded version resolves to `None`, `get_fields`
returns the raw mapping together with only the built-in identity field,
issues no existence batch, and leaves the field cache unchanged. -/
theorem get_fields_no_version (env : FcEnv) (cache : FieldCache)
    (resource_id : String) (version : Option Nat)
    (hrv : env.get_rounded_version (prefix_resource env.pfx resource_id)
      version = none)
    (hmiss : cacheGet cache (resource_id, none) = none) :
    get_fields env cache resource_id version =
      .ok ((env.get_mapping (prefix_resource env.pfx resource_id),
            [⟨"_id", "integer"⟩]), cache, []) := by
  simp only [get_fields, hrv, hmiss]

/-- C3: `get_fields` never overwrites or removes an existing cache entry
(every entry readable before a call is readable unchanged after it), and a
second call whose version resolves to the same rounded version returns a
result identical to the first call's and issues no existence batch. -/
theorem get_fields_cache_stable (env : FcEnv) (cache cache' : FieldCache)
    (resource_id : String) (v₁ v₂ : Option Nat)
    (res : Mapping × List FieldDesc) (log₁ : List (List ExistsQuery))
    (hsame : env.get_rounded_version (prefix_resource env.pfx resource_id)
        v₂ =
      env.get_rounded_version (prefix_resource env.pfx resource_id) v₁)
    (h₁ : get_fields env cache resource_id v₁ = .ok (res, cache', log₁)) :
    get_fields env cache' resource_id v₂ = .ok (res, cache', []) ∧
    ∀ k val, cacheGet cache k = some val → cacheGet cache' k = some val := by
  simp only [get_fields] at h₁ ⊢
  rw [hsame]
  cases hc : cacheGet cache (resource_id,
      env.get_rounded_version (prefix_resource env.pfx resource_id) v₁) with
  | some cached =>
    simp only [hc, Except.ok.injEq, Prod.mk.injEq] at h₁
    obtain ⟨hres, hcache, _hlog⟩ := h₁
    subst hres
    subst hcache
    rw [hc]
    exact ⟨rfl, fun k val h => h⟩
  | none =>
    cases hrv : env.get_rounded_version
        (prefix_resource env.pfx resource_id) v₁ with
    | none =>
      rw [hrv] at hc
      simp only [hc, hrv, Except.ok.injEq, Prod.mk.injEq] at h₁
      obtain ⟨hres, hcache, _hlog⟩ := h₁
      subst hres
      subst hcache
      simp only [hc]
      exact ⟨trivial, fun k val h => h⟩
    | some rv =>
      rw [hrv] at hc
      by_cases hid : "_id" ∈ sortStrings
          (env.get_mapping (prefix_resource env.pfx resource_id)).dataFields
      · simp only [hc, hrv, if_pos hid, Except.ok.injEq,
          Prod.mk.injEq] at h₁
        obtain ⟨hres, hcache, _hlog⟩ := h₁
        subst hres
        rw [← hcache]
        constructor
        · simp [cacheGet]
        · intro k val h
          simp only [cacheGet]
          by_cases hk : k = (resource_id, some rv)
          · rw [hk] at h
            rw [h] at hc
            exact absurd hc (by simp)
          · simp [hk, h]
      · simp only [hc, hrv, if_neg hid] at h₁
        exact Except.noConfusion h₁

theorem zip_map_self {α β : Type} (l : List α) (g : α → β) :
    l.zip (l.map g) = l.map (fun a => (a, g a)) := by
  induction l with
  | nil => rfl
  | cons a t ih => simp [ih]

theorem insertSorted_perm (s : String) (l : List String) :
    List.Perm (insertSorted s l) (s :: l) := by
  induction l with
  | nil => exact List.Perm.refl _
  | cons t rest ih =>
    unfold insertSorted
    split
    · exact List.Perm.refl _
    · exact (List.Perm.cons t ih).trans (List.Perm.swap s t rest)

theorem sortStrings_perm (l : List String) :
    List.Perm (sortStrings l) l := by
  induction l with
  | nil => exact List.Perm.refl _
  | cons a t ih =>
    exact (insertSorted_perm a (sortStrings t)).trans (List.Perm.cons a ih)

theorem mem_sortStrings (l : List String) (s : String) :
    s ∈ sortStrings l ↔ s ∈ l :=
  (sortStrings_perm l).mem_iff

theorem nodup_sortStrings (l : List String) (h : l.Nodup) :
    (sortStrings l).Nodup :=
  ((sortStrings_perm l).nodup_iff).mpr h

/-- C4: on a cache miss with a resolved rounded version, `get_fields`
executes exactly one batched multi-query holding one size-0 existence
sub-query per declared data field (the `_id` field excluded, the rest in
sorted order), each scoped to the rounded version; a declared field other
than `_id` appears in the returned field list if and only if its sub-query
counts at least one record, and every such kept field has type
`"string"`. -/
theorem get_fields_miss_batch (env : FcEnv) (cache : FieldCache)
    (resource_id : String) (version : Option Nat) (rv : Nat) (m : Mapping)
    (hm : env.get_mapping (prefix_resource env.pfx resource_id) = m)
    (hrv : env.get_rounded_version (prefix_resource env.pfx resource_id)
      version = some rv)
    (hmiss : cacheGet cache (resource_id, some rv) = none)
    (hnd : m.dataFields.Nodup)
    (hid : "_id" ∈ m.dataFields) :
    ∃ kept,
      get_fields env cache resource_id version =
        .ok ((m, ⟨"_id", "integer"⟩ :: kept),
             ((resource_id, some rv),
               (m, ⟨"_id", "integer"⟩ :: kept)) :: cache,
             [((sortStrings m.dataFields).erase "_id").map (fun field =>
               ExistsQuery.mk (prefix_resource env.pfx resource_id)
                 (prefix_field field) rv)]) ∧
      (∀ f : String, (⟨f, "string"⟩ : FieldDesc) ∈ kept ↔
        (f ∈ m.dataFields ∧ f ≠ "_id" ∧
         0 < env.total (ExistsQuery.mk
           (prefix_resource env.pfx resource_id) (prefix_field f) rv))) ∧
      (∀ d ∈ kept, d.type = "string" ∧ d.id ≠ "_id") := by
  have hmemFN : ∀ f : String,
      f ∈ (sortStrings m.dataFields).erase "_id" ↔
        f ≠ "_id" ∧ f ∈ m.dataFields := by
    intro f
    rw [List.Nodup.mem_erase_iff (nodup_sortStrings _ hnd),
      mem_sortStrings]
  have hid' : "_id" ∈ sortStrings m.dataFields :=
    (mem_sortStrings _ _).mpr hid
  simp only [get_fields, hrv, hmiss, hm, if_pos hid']
  rw [List.map_map, zip_map_self, List.filterMap_map]
  refine ⟨_, rfl, ?_, ?_⟩
  · intro f
    constructor
    · intro hf
      rcases List.mem_filterMap.mp hf with ⟨a, ha, hfa⟩
      simp only [Function.comp] at hfa
      split_ifs at hfa with h0
      · rcases Option.some.injEq _ _ ▸ hfa with hEq
        have haf : a = f := congrArg FieldDesc.id (Option.some.inj hfa)
        subst haf
        rcases (hmemFN a).mp ha with ⟨hne, hmem⟩
        exact ⟨hmem, hne, h0⟩
    · intro ⟨hmem, hne, h0⟩
      refine List.mem_filterMap.mpr ⟨f, (hmemFN f).mpr ⟨hne, hmem⟩, ?_⟩
      simp only [Function.comp]
      rw [if_pos h0]
  · intro d hd
    rcases List.mem_filterMap.mp hd with ⟨a, ha, hfa⟩
    simp only [Function.comp] at hfa
    split_ifs at hfa with h0
    · rcases (hmemFN a).mp ha with ⟨hne, _⟩
      have : d = ⟨a, "string"⟩ := (Option.some.inj hfa).symm
      subst this
      exact ⟨rfl, hne⟩

theorem mem_erase_id (m : Mapping) (hnd : m.dataFields.Nodup) (f : String) :
    f ∈ (sortStrings m.dataFields).erase "_id" ↔
      f ≠ "_id" ∧ f ∈ m.dataFields := by
  rw [List.Nodup.mem_erase_iff (nodup_sortStrings _ hnd), mem_sortStrings]

theorem mem_kept_shape {l : List String} {g : String → Nat} {d : FieldDesc}
    (hd : d ∈ l.filterMap (fun f => if 0 < g f then
      some (FieldDesc.mk f "string") else none)) :
    d.type = "string" ∧ d.id ∈ l := by
  rcases List.mem_filterMap.mp hd with ⟨a, ha, hfa⟩
  split_ifs at hfa
  cases Option.some.inj hfa
  exact ⟨rfl, ha⟩

/-- The shape of every field list `get_fields` produces: the built-in
identity descriptor `{id: _id, type: integer}` comes first, `_id` occurs
exactly once, and every other field has type `"string"`. -/
def fieldListOk (fs : List FieldDesc) : Prop :=
  fs.head? = some ⟨"_id", "integer"⟩ ∧
  fs.filter (fun d => d.id == "_id") = [⟨"_id", "integer"⟩] ∧
  ∀ d ∈ fs, d.id ≠ "_id" → d.type = "string"

theorem fieldListOk_id_only : fieldListOk [⟨"_id", "integer"⟩] := by
  unfold fieldListOk
  exact ⟨rfl, by decide, by decide⟩

/-- C10: starting from a cache whose entries all have the `fieldListOk`
shape, any successful `get_fields` call returns a field list whose first
element is the built-in `{id: _id, type: integer}` descriptor, in which
`_id` occurs exactly once (it is removed from the declared names before
the existence checks) and is the only field whose type is not `"string"`;
the updated cache keeps that shape for every entry. -/
theorem get_fields_id_first (env : FcEnv) (cache cache' : FieldCache)
    (resource_id : String) (version : Option Nat)
    (res : Mapping × List FieldDesc) (log : List (List ExistsQuery))
    (hwf : ∀ k val, cacheGet cache k = some val → fieldListOk val.2)
    (hnd : (env.get_mapping
      (prefix_resource env.pfx resource_id)).dataFields.Nodup)
    (h : get_fields env cache resource_id version = .ok (res, cache', log)) :
    fieldListOk res.2 ∧
    ∀ k val, cacheGet cache' k = some val → fieldListOk val.2 := by
  simp only [get_fields] at h
  cases hc : cacheGet cache (resource_id,
      env.get_rounded_version (prefix_resource env.pfx resource_id)
        version) with
  | some cached =>
    simp only [hc, Except.ok.injEq, Prod.mk.injEq] at h
    obtain ⟨hres, hcache, _hlog⟩ := h
    subst hres
    subst hcache
    exact ⟨hwf _ _ hc, hwf⟩
  | none =>
    cases hrv : env.get_rounded_version
        (prefix_resource env.pfx resource_id) version with
    | none =>
      rw [hrv] at hc
      simp only [hc, hrv, Except.ok.injEq, Prod.mk.injEq] at h
      obtain ⟨hres, hcache, _hlog⟩ := h
      subst hres
      subst hcache
      exact ⟨fieldListOk_id_only, hwf⟩
    | some rv =>
      rw [hrv] at hc
      by_cases hid : "_id" ∈ sortStrings
          (env.get_mapping (prefix_resource env.pfx resource_id)).dataFields
      · simp only [hc, hrv, if_pos hid, Except.ok.injEq,
          Prod.mk.injEq] at h
        rw [List.map_map, zip_map_self, List.filterMap_map] at h
        simp only [Function.comp] at h
        obtain ⟨hres, hcache, _hlog⟩ := h
        have hok : fieldListOk (FieldDesc.mk "_id" "integer" ::
            ((sortStrings (env.get_mapping
              (prefix_resource env.pfx resource_id)).dataFields).erase
                "_id").filterMap (fun f =>
              if 0 < env.total ⟨prefix_resource env.pfx resource_id,
                  prefix_field f, rv⟩ then
                some (FieldDesc.mk f "string") else none)) := by
          refine ⟨rfl, ?_, ?_⟩
          · rw [List.filter_cons_of_pos (by simp)]
            rw [List.filter_eq_nil_iff.mpr]
            intro d hd
            have hsh := mem_kept_shape hd
            have := (mem_erase_id _ hnd d.id).mp hsh.2
            simp [this.1]
          · intro d hd hne
            rcases List.mem_cons.mp hd with hd1 | hd2
            · exact absurd (congrArg FieldDesc.id hd1) hne
            · exact (mem_kept_shape hd2).1
        subst hres
        subst hcache
        refine ⟨hok, ?_⟩
        intro k val hkv
        simp only [cacheGet] at hkv
        by_cases hk : k = (resource_id, some rv)
        · rw [if_pos hk] at hkv
          cases Option.some.inj hkv
          exact hok
        · rw [if_neg hk] at hkv
          exact hwf _ _ hkv
      · simp only [hc, hrv, if_neg hid] at h
        exact Except.noConfusion h

/-- A sample hit used to exercise the multisearch embedding. -/
def wHit (n : Int) : Hit :=
  ⟨[("x", toString n)], "nhm-r1", ⟨n, n, "nhm-r1"⟩⟩

/-- A sample backend answer: three hits, newest first. -/
def wResult : SearchResult := ⟨[wHit 3, wHit 2, wHit 1], 3, []⟩

/-- A sample multisearch environment: queries validate, the resolver allows
`r1` and skips `r2`, the backend returns `wResult`. -/
def wMsEnv : MsEnv :=
  { pfx := "nhm-"
  , latest_query_version := "v1.0.0"
  , validate_query := fun _ _ => .ok ()
  , translate_query := fun _ _ => .ok ["q"]
  , determine_resources_to_search := fun _ _ => (["r1"], ["r2"])
  , determine_version_filter := fun _ _ _ => "vf"
  , execute := fun _ => .ok wResult
  , modify_response := [] }

/-- Sample multisearch parameters with page size 2. -/
def wMsParams : MsParams :=
  { query := none, query_version := none, version := none
  , resource_ids := some ["r1", "r2"], resource_ids_and_versions := none
  , size := 2, after := none, top_resources := false, timings := false }

theorem multisearch_pagination_protocol_witness :
    (datastore_multisearch wMsEnv wMsParams).1.map MsResponse.after =
      .ok (some ⟨2, 2, "nhm-r1"⟩) := by
  obtain ⟨_, resp, hdm, hfull, _⟩ :=
    multisearch_pagination_protocol wMsEnv wMsParams ["q"] ["r1"] ["r2"]
      wResult rfl rfl rfl rfl (by decide) rfl
  obtain ⟨ha, _, _⟩ := hfull (by decide)
  rw [hdm]
  simp only [Except.map]
  rw [ha]
  exact congrArg Except.ok (by decide)

theorem multisearch_fixed_sort_strict_total_order_witness :
    sortKeyBefore ⟨2, 0, "a"⟩ ⟨0, 0, "a"⟩ :=
  multisearch_fixed_sort_strict_total_order.2.2.1 ⟨2, 0, "a"⟩ ⟨1, 0, "a"⟩
    ⟨0, 0, "a"⟩ (Or.inl (by norm_num)) (Or.inl (by norm_num))

instance exceptDecEq {e a : Type} [DecidableEq e] [DecidableEq a] :
    DecidableEq (Except e a) := fun x y =>
  match x, y with
  | .error e1, .error e2 =>
    if h : e1 = e2 then isTrue (by rw [h])
    else isFalse (fun hc => h (Except.error.inj hc))
  | .error _, .ok _ => isFalse (fun hc => Except.noConfusion hc)
  | .ok _, .error _ => isFalse (fun hc => Except.noConfusion hc)
  | .ok a1, .ok a2 =>
    if h : a1 = a2 then isTrue (by rw [h])
    else isFalse (fun hc => h (Except.ok.inj hc))

instance fcPairDecEq :
    DecidableEq (FieldCache × List (List ExistsQuery)) :=
  instDecidableEqProd

instance fcTripleDecEq :
    DecidableEq ((Mapping × List FieldDesc) × FieldCache ×
      List (List ExistsQuery)) :=
  instDecidableEqProd

instance fcResultDecEq :
    DecidableEq (Except String ((Mapping × List FieldDesc) × FieldCache ×
      List (List ExistsQuery))) :=
  exceptDecEq

/-- A sample field-cache environment: versions round to themselves, the
mapping declares `_id`, `name` and `year`, and only `name` has records. -/
def wFcEnv : FcEnv :=
  { pfx := "nhm-"
  , get_rounded_version := fun _ v => v
  , get_mapping := fun _ => ⟨["_id", "name", "year"]⟩
  , total := fun q => if q.field = "data.name" then 2 else 0 }

/-- The cache entry the sample `get_fields` run produces. -/
def wEntry : Mapping × List FieldDesc :=
  (⟨["_id", "name", "year"]⟩, [⟨"_id", "integer"⟩, ⟨"name", "string"⟩])

/-- The cache after the sample `get_fields` run. -/
def wCache : FieldCache := [(("r1", some 5), wEntry)]

/-- The single existence batch the sample `get_fields` run executes. -/
def wLog : List (List ExistsQuery) :=
  [[⟨"nhm-r1", "data.name", 5⟩, ⟨"nhm-r1", "data.year", 5⟩]]

theorem get_fields_cache_stable_witness :
    get_fields wFcEnv wCache "r1" (some 5) = .ok (wEntry, wCache, []) :=
  (get_fields_cache_stable wFcEnv [] wCache "r1" (some 5) (some 5) wEntry
    wLog rfl (by decide)).1

theorem get_fields_miss_batch_witness :
    (get_fields wFcEnv [] "r1" (some 5)).map (fun r => r.2.2) = .ok wLog := by
  obtain ⟨kept, heq, _, _⟩ := get_fields_miss_batch wFcEnv [] "r1" (some 5)
    5 ⟨["_id", "name", "year"]⟩ rfl rfl rfl (by decide) (by decide)
  rw [heq]
  simp only [Except.map]
  exact congrArg Except.ok (by decide)

theorem get_fields_no_version_witness :
    get_fields wFcEnv [] "r1" none =
      .ok ((⟨["_id", "name", "year"]⟩, [⟨"_id", "integer"⟩]), [], []) :=
  get_fields_no_version wFcEnv [] "r1" none rfl rfl

theorem get_fields_id_first_witness :
    fieldListOk [⟨"_id", "integer"⟩, ⟨"name", "string"⟩] :=
  (get_fields_id_first wFcEnv [] wCache "r1" (some 5) wEntry wLog
    (fun k val h => Option.noConfusion h) (by decide) (by decide)).1

/-- A sample guess-fields environment: queries validate, the resolver allows
`r1`, the single-resource helper reports which version it was handed. -/
def wGfEnv : GfEnv :=
  { latest_query_version := "v1.0.0"
  , validate_query := fun _ _ => .ok ()
  , translate_query := fun _ _ => .ok ["q"]
  , determine_resources_to_search := fun _ _ => (["r1"], [])
  , determine_version_filter := fun _ _ _ => "vf"
  , now := 100
  , find_searched_resources := fun _ r => r
  , get_all_fields := fun r => ⟨r, []⟩
  , modify_guess_fields := []
  , get_single_resource_fields := fun _ r uv _ _ => [(r, uv)]
  , select_fields := fun _ _ n => [("multi", n.toNat)] }

/-- Guess-fields parameters with a per-resource version map pinning `r1` at
version 7 while the single `version` parameter says 9. -/
def wGfPmap : GfParams :=
  ⟨none, none, some 9, some ["r1"], some [("r1", 7)], 10, none⟩

/-- The same parameters without the per-resource map. -/
def wGfPnone : GfParams :=
  ⟨none, none, some 9, some ["r1"], none, 10, none⟩

theorem guess_fields_version_precedence_witness :
    datastore_guess_fields wGfEnv wGfPmap = .ok [("r1", 7)] ∧
    datastore_guess_fields wGfEnv wGfPnone = .ok [("r1", 9)] := by
  constructor
  · obtain ⟨af, h⟩ := (guess_fields_version_precedence wGfEnv wGfPmap ["q"]
      ["r1"] [] "r1" rfl rfl rfl (by decide) rfl).2 [("r1", 7)] 7 rfl
      (by decide)
    exact h
  · obtain ⟨af, h⟩ := (guess_fields_version_precedence wGfEnv wGfPnone ["q"]
      ["r1"] [] "r1" rfl rfl rfl (by decide) rfl).1 rfl
    exact h

/-- A guess-fields environment whose resolver allows two resources. -/
def wGfEnvMulti : GfEnv :=
  { wGfEnv with determine_resources_to_search := fun _ _ => (["a", "b"], []) }

/-- Multi-resource guess parameters with an oversized page size of 30. -/
def wGfPmulti : GfParams :=
  ⟨none, none, none, some ["a", "b"], none, 30, none⟩

theorem effective_size_clamped_witness :
    (build_multisearch_request wMsEnv ["q"] wMsParams ["r1"]).size = 3 ∧
    datastore_guess_fields wGfEnvMulti wGfPmulti = .ok [("multi", 25)] := by
  obtain ⟨⟨h1, _, _⟩, af, h2, _, _⟩ := effective_size_clamped wMsEnv ["q"]
    wMsParams ["r1"] wGfEnvMulti wGfPmulti ["q"] ["a", "b"] [] "a" "b" []
    rfl rfl rfl (by decide) rfl
  exact ⟨h1.trans (by decide), h2⟩

/-- A multisearch environment whose resolver allows nothing. -/
def wMsEnvEmpty : MsEnv :=
  { wMsEnv with determine_resources_to_search := fun _ _ => ([], ["r2"]) }

/-- A guess-fields environment whose resolver allows nothing. -/
def wGfEnvEmpty : GfEnv :=
  { wGfEnv with determine_resources_to_search := fun _ _ => ([], ["r2"]) }

theorem empty_resources_validation_error_witness :
    datastore_multisearch wMsEnvEmpty wMsParams =
      (.error (.validation
        "The requested resources aren\x27t accessible to this user"), []) ∧
    datastore_guess_fields wGfEnvEmpty wGfPnone =
      .error (.validation
        "The requested resources aren\x27t accessible to this user") := by
  obtain ⟨h1, h2, _⟩ := empty_resources_validation_error wMsEnvEmpty
    wMsParams wGfEnvEmpty wGfPnone ["q"] ["q"] ["r2"] ["r2"]
    rfl rfl rfl rfl rfl rfl
  exact ⟨h1, h2⟩

/-- A sample stored slug. -/
def wSlug : Slug := ⟨[("t", "eq")], "v1.0.0", some 4, some ["r1"], none, 99⟩

/-- A sample slug store holding only the slug string `"hit"`. -/
def wLookup : String → Option Slug :=
  fun s => if s = "hit" then some wSlug else none

theorem resolve_slug_not_found_or_tuple_witness :
    datastore_resolve_slug wLookup "miss" =
      .error (.validation "Slug not found") ∧
    datastore_resolve_slug wLookup "hit" =
      .ok ⟨[("t", "eq")], "v1.0.0", some 4, some ["r1"], none, 99⟩ :=
  ⟨((resolve_slug_not_found_or_tuple wLookup "miss").1 (by decide)).1,
   (resolve_slug_not_found_or_tuple wLookup "hit").2 wSlug (by decide)⟩
